import Mathlib

/-!
# Verification of the Port ingestion pipeline (devport-crawler)

Shallow embedding of the Port ingestion pipeline: the orchestrator's stage
loop (`app/orchestrator_port.py`), the events stage, the completion-webhook
builder and dispatcher, the fetch-outcome contract
(`app/crawlers/port/contracts.py`), the event classifier
(`app/services/port/event_classifier.py`), and the star-history rollup.

Components of the repository that are not present in the source tree
(`app/crawlers/port/client.py`, `app/models/project_event.py`,
`app/services/port/star_history_rollup.py`) are modelled from the
specification; each such definition carries a doc comment starting with
`Modelled from the spec:`.
-/

namespace Devport

/-! ## Redaction helper -/

/-- Fixed redaction marker used in place of credentials. -/
def REDACTION_MARKER : String := "[REDACTED]"

/-- Credential-shaped prefixes scanned for in free-text error strings. -/
def credentialMarkers : List String := ["Bearer ", "token=", "key="]

/-- Mask the whitespace-delimited token that follows each occurrence of
`marker` inside `s`. -/
def maskAfter (marker : String) (s : String) : String :=
  match s.splitOn marker with
  | [] => s
  | first :: rest =>
    first ++ String.join (rest.map (fun part =>
      marker ++ REDACTION_MARKER ++ part.dropWhile (fun c => c ≠ ' ')))

/-- Modelled from the spec: `sanitize_for_log` lives in
`app/crawlers/port/client.py`, which is not in the source tree.  Per §7,
oversized free-text payloads are replaced by a length-only placeholder and
credential-shaped substrings (`Bearer `, `token=`, `key=`) are masked. -/
def sanitize_for_log (s : String) : String :=
  if s.length > 2000 then "<redacted payload, length=" ++ toString s.length ++ ">"
  else credentialMarkers.foldl (fun acc m => maskAfter m acc) s

/-- Python `str.strip()`: drop leading and trailing whitespace (structural
embedding; `String.trim` is not kernel-reducible). -/
def pyStrip (s : String) : String :=
  ⟨((s.data.dropWhile Char.isWhitespace).reverse.dropWhile Char.isWhitespace).reverse⟩

/-! ## Orchestrator stage loop (`PortCrawlerOrchestrator._run`, lines 104-184)

Stage stats dicts are heterogeneous in Python; at the `_run` boundary only
emptiness and equality of stats matter, so stats are embedded as an
association list of strings.  A stage runner call either returns a result
dict or raises; this is embedded as `Except String StageResult` where the
`.error` case carries `str(exc)`.  Database and HTTP collaborators behind
the runners are quantified over, not modelled. -/

/-- Stats map attached to a stage result (shape-only embedding of the
Python dict). -/
abbrev Stats := List (String × String)

/-- One stage's result dict: `{success, error?, stats}`. -/
structure StageResult where
  success : Bool
  error : Option String := none
  stats : Stats := []
deriving Repr, DecidableEq

/-- One call to a stage runner: a returned result dict, or a raised
exception carrying its message. -/
abbrev StageBehavior := Except String StageResult

/-- Stage name constants (`STAGE_PROJECTS`, `STAGE_EVENTS`,
`STAGE_METRICS`). -/
def STAGE_PROJECTS : String := "projects"

def STAGE_EVENTS : String := "events"

def STAGE_METRICS : String := "metrics"

/-- `ALL_STAGES` (line 33). -/
def ALL_STAGES : List String := [STAGE_PROJECTS, STAGE_EVENTS, STAGE_METRICS]

/-- `DAILY_DEFAULT_STAGES` (line 34). -/
def DAILY_DEFAULT_STAGES : List String := [STAGE_EVENTS, STAGE_METRICS]

/-- The keys of `_resolve_stage_runner`'s mapping (lines 254-260); any other
stage name resolves to `None`. -/
def stageRunnerNames : List String := [STAGE_PROJECTS, STAGE_EVENTS, STAGE_METRICS]

/-- Python-dict insert-or-update on an insertion-ordered association list
(`run_stats["stages"][stage_name] = ...`). -/
def dictSet (d : List (String × StageResult)) (k : String) (v : StageResult) :
    List (String × StageResult) :=
  match d with
  | [] => [(k, v)]
  | (k', v') :: rest => if k' = k then (k, v) :: rest else (k', v') :: dictSet rest k v

/-- Lookup in the insertion-ordered association list. -/
def dictGet (d : List (String × StageResult)) (k : String) : Option StageResult :=
  match d with
  | [] => none
  | (k', v') :: rest => if k' = k then some v' else dictGet rest k

/-- Accumulator threaded through the `for stage_name in stages` loop.
`calls` instruments which stage runners were actually invoked, in order
(observable in the source only through the runners' side effects; compare
`call_order` in `test_port_orchestrator_keeps_stage_isolation_on_failure`). -/
structure RunAcc where
  stages : List (String × StageResult)
  errors : List String
  calls : List String
deriving Repr, DecidableEq

/-- One iteration of the stage loop (lines 128-173): resolve the runner,
handle the unknown-stage case, invoke the runner, sanitize a returned
error, and on a raised exception record `{success: False, error, stats: {}}`
plus an `errors` entry. -/
def runStageStep (behaviors : String → StageBehavior) (acc : RunAcc)
    (stage_name : String) : RunAcc :=
  if stage_name ∈ stageRunnerNames then
    match behaviors stage_name with
    | .ok result =>
      let result' : StageResult :=
        { result with error := result.error.map sanitize_for_log }
      let acc' : RunAcc :=
        { acc with
            stages := dictSet acc.stages stage_name result'
            calls := acc.calls ++ [stage_name] }
      if result'.success then acc'
      else
        let summarized := sanitize_for_log ((result'.error).getD "stage failed")
        { acc' with errors := acc'.errors ++ [pyStrip (stage_name ++ ": " ++ summarized)] }
    | .error exc =>
      let sanitized := sanitize_for_log exc
      { stages := dictSet acc.stages stage_name
          { success := false, error := some sanitized, stats := [] }
        errors := acc.errors ++ [stage_name ++ ": " ++ sanitized]
        calls := acc.calls ++ [stage_name] }
  else
    { stages := dictSet acc.stages stage_name
        { success := false, error := some ("Unknown stage: " ++ stage_name), stats := [] }
      errors := acc.errors ++ [sanitize_for_log (stage_name ++ ": unknown stage")]
      calls := acc.calls }

/-- The run-stats dict returned by `_run` (mutable fields only; logging and
the schema-compatibility pass have no effect on the returned value). -/
structure RunStats where
  mode : String
  started_at : String
  stages_requested : List String
  stages : List (String × StageResult)
  errors : List String
  completed_at : String
  success : Bool
  calls : List String
deriving Repr, DecidableEq

/-- `PortCrawlerOrchestrator._run` (lines 104-184): fold the stage loop over
the requested stage names, then derive `success` from all recorded stage
results.  The completion-webhook dispatch result (stored under the
`"webhook"` key when not `None`) does not influence any other field and is
modelled separately. -/
def orchestratorRun (behaviors : String → StageBehavior) (mode : String)
    (stages : List String) (started_at completed_at : String) : RunStats :=
  let acc := stages.foldl (runStageStep behaviors) ⟨[], [], []⟩
  { mode := mode
    started_at := started_at
    stages_requested := stages
    stages := acc.stages
    errors := acc.errors
    completed_at := completed_at
    success := acc.stages.all (fun e => e.2.success)
    calls := acc.calls }

/-- Python truthiness of `stages or DEFAULT` (lines 84 and 95): `None` and
the empty sequence both fall back to the default stage tuple. -/
def pySeqOr (stages : Option (List String)) (dflt : List String) : List String :=
  match stages with
  | none => dflt
  | some s => if s.isEmpty then dflt else s

/-- `run_daily_sync` (lines 78-85). -/
def run_daily_sync (behaviors : String → StageBehavior)
    (stages : Option (List String)) (started_at completed_at : String) : RunStats :=
  orchestratorRun behaviors "daily" (pySeqOr stages DAILY_DEFAULT_STAGES)
    started_at completed_at

/-- `run_backfill` (lines 87-102). -/
def run_backfill (behaviors : String → StageBehavior)
    (stages : Option (List String)) (started_at completed_at : String) : RunStats :=
  orchestratorRun behaviors "backfill" (pySeqOr stages ALL_STAGES)
    started_at completed_at

/-! ### Characterization lemmas for the stage loop -/

/-- The result dict recorded for stage `s` by one loop iteration; it only
depends on the stage name and the runner's behavior. -/
def stageEntry (behaviors : String → StageBehavior) (s : String) : StageResult :=
  if s ∈ stageRunnerNames then
    match behaviors s with
    | .ok r => { r with error := r.error.map sanitize_for_log }
    | .error e => { success := false, error := some (sanitize_for_log e), stats := [] }
  else { success := false, error := some ("Unknown stage: " ++ s), stats := [] }

/-- The `errors` entries appended for stage `s` by one loop iteration. -/
def stageErrAppend (behaviors : String → StageBehavior) (s : String) : List String :=
  if s ∈ stageRunnerNames then
    match behaviors s with
    | .ok r =>
      let r' : StageResult := { r with error := r.error.map sanitize_for_log }
      if r'.success then []
      else [pyStrip (s ++ ": " ++ sanitize_for_log ((r'.error).getD "stage failed"))]
    | .error e => [s ++ ": " ++ sanitize_for_log e]
  else [sanitize_for_log (s ++ ": unknown stage")]

theorem runStageStep_eq (behaviors : String → StageBehavior) (acc : RunAcc)
    (s : String) :
    runStageStep behaviors acc s =
      { stages := dictSet acc.stages s (stageEntry behaviors s)
        errors := acc.errors ++ stageErrAppend behaviors s
        calls := acc.calls ++ (if s ∈ stageRunnerNames then [s] else []) } := by
  unfold runStageStep stageEntry stageErrAppend
  by_cases h : s ∈ stageRunnerNames
  · simp only [if_pos h]
    cases behaviors s with
    | ok r =>
      by_cases hs : r.success
      · simp [hs]
      · simp [hs]
    | error e => simp
  · simp [h]

theorem dictGet_dictSet_self (d : List (String × StageResult)) (k : String)
    (v : StageResult) : dictGet (dictSet d k v) k = some v := by
  induction d with
  | nil => simp [dictSet, dictGet]
  | cons e tl ih =>
    obtain ⟨k', v'⟩ := e
    by_cases hk : k' = k
    · simp [dictSet, dictGet, hk]
    · simp [dictSet, dictGet, hk, ih]

theorem dictGet_dictSet_ne (d : List (String × StageResult)) (k k' : String)
    (v : StageResult) (h : k' ≠ k) :
    dictGet (dictSet d k' v) k = dictGet d k := by
  induction d with
  | nil => simp [dictSet, dictGet, h]
  | cons e tl ih =>
    obtain ⟨k'', v''⟩ := e
    by_cases hk : k'' = k'
    · subst hk
      simp [dictSet, dictGet, h]
    · simp [dictSet, dictGet, hk, ih]

theorem foldl_stages_lookup (behaviors : String → StageBehavior)
    (names : List String) (acc : RunAcc) (s : String) :
    dictGet (names.foldl (runStageStep behaviors) acc).stages s =
      if s ∈ names then some (stageEntry behaviors s)
      else dictGet acc.stages s := by
  induction names generalizing acc with
  | nil => simp
  | cons n rest ih =>
    simp only [List.foldl_cons, ih, runStageStep_eq]
    by_cases hmem : s ∈ rest
    · simp [hmem, List.mem_cons]
    · by_cases hn : s = n
      · subst hn
        simp [hmem, dictGet_dictSet_self]
      · simp [hmem, hn, dictGet_dictSet_ne _ _ _ _ (fun h => hn h.symm)]

theorem foldl_errors (behaviors : String → StageBehavior)
    (names : List String) (acc : RunAcc) :
    (names.foldl (runStageStep behaviors) acc).errors =
      acc.errors ++ (names.map (stageErrAppend behaviors)).flatten := by
  induction names generalizing acc with
  | nil => simp
  | cons n rest ih =>
    simp [List.foldl_cons, ih, runStageStep_eq, List.append_assoc]

theorem foldl_calls (behaviors : String → StageBehavior)
    (names : List String) (acc : RunAcc) :
    (names.foldl (runStageStep behaviors) acc).calls =
      acc.calls ++ names.filter (fun s => s ∈ stageRunnerNames) := by
  induction names generalizing acc with
  | nil => simp
  | cons n rest ih =>
    by_cases h : n ∈ stageRunnerNames
    · simp [List.foldl_cons, ih, runStageStep_eq, h, List.filter_cons]
    · simp [List.foldl_cons, ih, runStageStep_eq, h, List.filter_cons]

/-- Every entry of a `dictSet` result is the inserted pair or came from the
original dict. -/
theorem mem_dictSet (d : List (String × StageResult)) (k : String)
    (v : StageResult) (e : String × StageResult) (he : e ∈ dictSet d k v) :
    e = (k, v) ∨ e ∈ d := by
  induction d with
  | nil =>
    simp [dictSet] at he
    exact Or.inl he
  | cons hd tl ih =>
    obtain ⟨k', v'⟩ := hd
    by_cases hk : k' = k
    · simp [dictSet, hk] at he
      rcases he with he | he
      · exact Or.inl he
      · exact Or.inr (List.mem_cons_of_mem _ he)
    · simp [dictSet, hk, List.mem_cons] at he
      rcases he with he | he
      · exact Or.inr (by simp [he])
      · rcases ih he with h | h
        · exact Or.inl h
        · exact Or.inr (List.mem_cons_of_mem _ h)

/-- Every entry of the final stages dict was produced by `stageEntry` for a
requested stage name (starting from the empty accumulator). -/
theorem mem_foldl_stages (behaviors : String → StageBehavior)
    (names : List String) (acc : RunAcc) (e : String × StageResult)
    (he : e ∈ (names.foldl (runStageStep behaviors) acc).stages) :
    e ∈ acc.stages ∨ (e.1 ∈ names ∧ e = (e.1, stageEntry behaviors e.1)) := by
  induction names generalizing acc with
  | nil =>
    simp at he
    exact Or.inl he
  | cons n rest ih =>
    simp only [List.foldl_cons] at he
    rcases ih _ he with h | h
    · rw [runStageStep_eq] at h
      simp only at h
      rcases mem_dictSet _ _ _ _ h with h' | h'
      · subst h'
        exact Or.inr ⟨by simp, rfl⟩
      · exact Or.inl h'
    · exact Or.inr ⟨List.mem_cons_of_mem _ h.1, h.2⟩

/-! ### Claim theorems for the stage loop -/

/-- C1.  Stage-level failure isolation: for every requested stage sequence
and every stage runner behavior, if the runner of stage `s` raises an
exception with message `msg`, then `_run` records
`{success: false, error: sanitize_for_log msg, stats: {}}` for `s`, appends
`"s: <sanitized msg>"` to the run's `errors` list, still invokes every
requested stage that has a registered runner in the requested order, and
returns the run-stats dict normally (the embedding of `_run` is a total
function, so no stage exception propagates to the caller). -/
theorem c1_stage_failure_isolation (behaviors : String → StageBehavior)
    (mode : String) (names : List String) (started_at completed_at : String)
    (s msg : String) (hs : s ∈ stageRunnerNames) (hmem : s ∈ names)
    (hb : behaviors s = .error msg) :
    dictGet (orchestratorRun behaviors mode names started_at completed_at).stages s =
        some { success := false, error := some (sanitize_for_log msg), stats := [] } ∧
      (s ++ ": " ++ sanitize_for_log msg) ∈
        (orchestratorRun behaviors mode names started_at completed_at).errors ∧
      (orchestratorRun behaviors mode names started_at completed_at).calls =
        names.filter (fun n => n ∈ stageRunnerNames) ∧
      (orchestratorRun behaviors mode names started_at completed_at).mode = mode ∧
      (orchestratorRun behaviors mode names started_at completed_at).stages_requested
        = names := by
  have hentry : stageEntry behaviors s =
      { success := false, error := some (sanitize_for_log msg), stats := [] } := by
    unfold stageEntry
    rw [if_pos hs, hb]
  have herr : stageErrAppend behaviors s = [s ++ ": " ++ sanitize_for_log msg] := by
    unfold stageErrAppend
    rw [if_pos hs, hb]
  refine ⟨?_, ?_, ?_, rfl, rfl⟩
  · show dictGet (names.foldl (runStageStep behaviors) ⟨[], [], []⟩).stages s = _
    rw [foldl_stages_lookup, if_pos hmem, hentry]
  · show _ ∈ (names.foldl (runStageStep behaviors) ⟨[], [], []⟩).errors
    rw [foldl_errors]
    simp only [List.nil_append]
    exact List.mem_flatten.mpr
      ⟨stageErrAppend behaviors s, List.mem_map_of_mem _ hmem, by rw [herr]; simp⟩
  · show (names.foldl (runStageStep behaviors) ⟨[], [], []⟩).calls = _
    rw [foldl_calls]
    simp

/-- Witness for C1 at the shape of
`test_port_orchestrator_keeps_stage_isolation_on_failure`: the events
runner raises, the metrics runner succeeds. -/
def demoBehaviors : String → StageBehavior := fun s =>
  if s = "events" then .error "events unavailable"
  else .ok { success := true, stats := [("processed", "2")] }

theorem c1_stage_failure_isolation_witness :
    dictGet (orchestratorRun demoBehaviors "daily" ["events", "metrics"] "t0" "t1").stages
        "events" =
      some { success := false, error := some (sanitize_for_log "events unavailable"),
             stats := [] } ∧
    ("events" ++ ": " ++ sanitize_for_log "events unavailable") ∈
      (orchestratorRun demoBehaviors "daily" ["events", "metrics"] "t0" "t1").errors ∧
    (orchestratorRun demoBehaviors "daily" ["events", "metrics"] "t0" "t1").calls =
      ["events", "metrics"].filter (fun n => n ∈ stageRunnerNames) ∧
    (orchestratorRun demoBehaviors "daily" ["events", "metrics"] "t0" "t1").mode
      = "daily" ∧
    (orchestratorRun demoBehaviors "daily" ["events", "metrics"] "t0" "t1").stages_requested
      = ["events", "metrics"] :=
  c1_stage_failure_isolation demoBehaviors "daily" ["events", "metrics"] "t0" "t1"
    "events" "events unavailable" (by decide) (by decide) rfl

/-- C3.  Run-result aggregation: for every run, `success` is `true` iff
every recorded stage result has `success = true`, and whenever some
recorded stage result (including the synthetic result for an unknown stage
name) has `success = false`, the run's `errors` list is non-empty. -/
theorem c3_run_result_aggregation (behaviors : String → StageBehavior)
    (mode : String) (names : List String) (started_at completed_at : String) :
    ((orchestratorRun behaviors mode names started_at completed_at).success = true ↔
      ∀ e ∈ (orchestratorRun behaviors mode names started_at completed_at).stages,
        e.2.success = true) ∧
    ((∃ e ∈ (orchestratorRun behaviors mode names started_at completed_at).stages,
        e.2.success = false) →
      (orchestratorRun behaviors mode names started_at completed_at).errors ≠ []) := by
  constructor
  · simp only [orchestratorRun]
    rw [List.all_eq_true]
  · rintro ⟨e, hmem, hfalse⟩
    show (names.foldl (runStageStep behaviors) ⟨[], [], []⟩).errors ≠ []
    have hmem' : e ∈ (names.foldl (runStageStep behaviors) ⟨[], [], []⟩).stages := hmem
    rcases mem_foldl_stages behaviors names ⟨[], [], []⟩ e hmem' with h | ⟨hin, hform⟩
    · simp at h
    · have hentry : (stageEntry behaviors e.1).success = false := by
        rw [hform] at hfalse
        exact hfalse
      have hnonempty : stageErrAppend behaviors e.1 ≠ [] := by
        unfold stageEntry at hentry
        unfold stageErrAppend
        by_cases hk : e.1 ∈ stageRunnerNames
        · rw [if_pos hk] at hentry ⊢
          cases hb : behaviors e.1 with
          | ok r =>
            rw [hb] at hentry
            simp only at hentry
            simp [hentry]
          | error m => simp
        · simp [hk]
      obtain ⟨x, hx⟩ := List.exists_mem_of_ne_nil _ hnonempty
      have hxerr : x ∈ (names.foldl (runStageStep behaviors) ⟨[], [], []⟩).errors := by
        rw [foldl_errors]
        simp only [List.nil_append]
        exact List.mem_flatten.mpr
          ⟨stageErrAppend behaviors e.1, List.mem_map_of_mem _ hin, hx⟩
      exact List.ne_nil_of_mem hxerr

/-- Witness for C3 at a concrete run: one failing stage, one succeeding. -/
theorem c3_run_result_aggregation_witness :
    ((orchestratorRun demoBehaviors "daily" ["events", "metrics"] "t0" "t1").success = true ↔
      ∀ e ∈ (orchestratorRun demoBehaviors "daily" ["events", "metrics"] "t0" "t1").stages,
        e.2.success = true) ∧
    ((∃ e ∈ (orchestratorRun demoBehaviors "daily" ["events", "metrics"] "t0" "t1").stages,
        e.2.success = false) →
      (orchestratorRun demoBehaviors "daily" ["events", "metrics"] "t0" "t1").errors ≠ []) :=
  c3_run_result_aggregation demoBehaviors "daily" ["events", "metrics"] "t0" "t1"

/-- C10.  An explicitly empty stage selection falls back to the mode's
default stage set: `run_daily_sync(stages=[])` behaves exactly like
`run_daily_sync()` (which runs `DAILY_DEFAULT_STAGES = [events, metrics]`),
and `run_backfill(stages=[])` behaves exactly like `run_backfill()` (which
runs `ALL_STAGES = [projects, events, metrics]`). -/
theorem c10_empty_stage_selection_defaults (behaviors : String → StageBehavior)
    (started_at completed_at : String) :
    run_daily_sync behaviors (some []) started_at completed_at =
        run_daily_sync behaviors none started_at completed_at ∧
      run_daily_sync behaviors (some []) started_at completed_at =
        orchestratorRun behaviors "daily" DAILY_DEFAULT_STAGES started_at completed_at ∧
      (run_daily_sync behaviors (some []) started_at completed_at).stages_requested =
        DAILY_DEFAULT_STAGES ∧
      run_backfill behaviors (some []) started_at completed_at =
        run_backfill behaviors none started_at completed_at ∧
      run_backfill behaviors (some []) started_at completed_at =
        orchestratorRun behaviors "backfill" ALL_STAGES started_at completed_at ∧
      (run_backfill behaviors (some []) started_at completed_at).stages_requested =
        ALL_STAGES :=
  ⟨rfl, rfl, rfl, rfl, rfl, rfl⟩
/-! ## Events stage (`PortCrawlerOrchestrator.run_events_stage`, lines 351-403)

`EventsStage.ingest_project` and the database session are collaborators
(`events_stage.py` is not in the source tree); one call per project is
embedded as `Except String EventsIngestResult` keyed by the project's
`full_name`, with the raised case carrying `str(exc)`.  `db.commit()` /
`db.rollback()` are recorded as observable operations. -/

/-- The value returned by `EventsStage.ingest_project` for one project. -/
structure EventsIngestResult where
  updated_count : Nat
  skipped_event_update : Bool
  failure_reasons : List String
deriving Repr, DecidableEq

/-- The events stage's stats dict. -/
structure EventsStats where
  projects : Nat
  updated_count : Nat
  skipped_event_update : Nat
  failed_projects : Nat
  failure_reasons : List (String × List String)
deriving Repr, DecidableEq

/-- Observable database transaction operations issued by the stage. -/
inductive DbOp where
  | commit (project : String)
  | rollback (project : String)
deriving Repr, DecidableEq

/-- Per-project behavior of `EventsStage.ingest_project`. -/
abbrev IngestBehavior := String → Except String EventsIngestResult

/-- Body of the per-project loop (lines 375-391): the try block updates the
stats and commits; the except block rolls back, bumps `failed_projects` and
records the failure reason.  Commit/rollback themselves are modelled as
always succeeding. -/
def eventsProjectStep (ingest : IngestBehavior) (st : EventsStats × List DbOp)
    (project : String) : EventsStats × List DbOp :=
  match ingest project with
  | .ok result =>
    ({ st.1 with
        updated_count := st.1.updated_count + result.updated_count
        skipped_event_update :=
          st.1.skipped_event_update + (if result.skipped_event_update then 1 else 0)
        failure_reasons :=
          st.1.failure_reasons ++
            (if result.failure_reasons.isEmpty then []
             else [(project, result.failure_reasons)]) },
     st.2 ++ [DbOp.commit project])
  | .error exc =>
    ({ st.1 with
        failed_projects := st.1.failed_projects + 1
        failure_reasons := st.1.failure_reasons ++ [(project, [exc])] },
     st.2 ++ [DbOp.rollback project])

/-- Result of the events stage: success flag, optional skipped marker, and
either the skip-reason stats or the accumulated stats dict. -/
inductive EventsStageStats where
  | skippedReason (reason : String)
  | normal (stats : EventsStats)
deriving Repr, DecidableEq

structure EventsStageOutcome where
  success : Bool
  skipped : Bool := false
  stats : EventsStageStats
deriving Repr, DecidableEq

/-- `run_events_stage` (lines 351-403): with no tracked projects the stage
reports `success=True, skipped=True`; otherwise every project is processed
by `eventsProjectStep` and the stage returns `success=True` with the
accumulated stats (the outer stage-level `except`, line 400, concerns
collaborator construction, which the model treats as succeeding). -/
def run_events_stage (ingest : IngestBehavior) (projects : List String) :
    EventsStageOutcome × List DbOp :=
  if projects.isEmpty then
    ({ success := true, skipped := true
       stats := .skippedReason "No tracked projects found" }, [])
  else
    let init : EventsStats :=
      { projects := projects.length, updated_count := 0, skipped_event_update := 0
        failed_projects := 0, failure_reasons := [] }
    let out := projects.foldl (eventsProjectStep ingest) (init, [])
    ({ success := true, skipped := false, stats := .normal out.1 }, out.2)

/-- The `failed_projects` counter read off an events-stage outcome. -/
def EventsStageStats.failedProjects : EventsStageStats → Nat
  | .skippedReason _ => 0
  | .normal s => s.failed_projects

/-- The `failure_reasons` list read off an events-stage outcome. -/
def EventsStageStats.failureReasons : EventsStageStats → List (String × List String)
  | .skippedReason _ => []
  | .normal s => s.failure_reasons

/-- The transaction op the loop performs for one project. -/
def projectDbOp (ingest : IngestBehavior) (project : String) : DbOp :=
  match ingest project with
  | .ok _ => DbOp.commit project
  | .error _ => DbOp.rollback project

/-- The failure-reason entries the loop appends for one project. -/
def projectReasonEntries (ingest : IngestBehavior) (project : String) :
    List (String × List String) :=
  match ingest project with
  | .ok r => if r.failure_reasons.isEmpty then [] else [(project, r.failure_reasons)]
  | .error exc => [(project, [exc])]

/-- Whether `ingest_project` raises for this project. -/
def projectFails (ingest : IngestBehavior) (project : String) : Bool :=
  match ingest project with
  | .ok _ => false
  | .error _ => true

theorem eventsProjectStep_eq (ingest : IngestBehavior) (st : EventsStats × List DbOp)
    (p : String) :
    (eventsProjectStep ingest st p).2 = st.2 ++ [projectDbOp ingest p] ∧
      (eventsProjectStep ingest st p).1.failed_projects =
        st.1.failed_projects + (if projectFails ingest p then 1 else 0) ∧
      (eventsProjectStep ingest st p).1.failure_reasons =
        st.1.failure_reasons ++ projectReasonEntries ingest p := by
  unfold eventsProjectStep projectDbOp projectFails projectReasonEntries
  cases ingest p with
  | ok r => simp
  | error e => simp

theorem events_foldl_ops (ingest : IngestBehavior) (projects : List String)
    (st : EventsStats × List DbOp) :
    (projects.foldl (eventsProjectStep ingest) st).2 =
      st.2 ++ projects.map (projectDbOp ingest) := by
  induction projects generalizing st with
  | nil => simp
  | cons p rest ih =>
    simp [List.foldl_cons, ih, (eventsProjectStep_eq ingest st p).1, List.append_assoc]

theorem events_foldl_failed (ingest : IngestBehavior) (projects : List String)
    (st : EventsStats × List DbOp) :
    (projects.foldl (eventsProjectStep ingest) st).1.failed_projects =
      st.1.failed_projects + (projects.filter (projectFails ingest)).length := by
  induction projects generalizing st with
  | nil => simp
  | cons p rest ih =>
    rw [List.foldl_cons, ih, (eventsProjectStep_eq ingest st p).2.1, List.filter_cons]
    by_cases h : projectFails ingest p
    · simp [h, Nat.add_assoc, Nat.add_comm 1]
    · simp [h]

theorem events_foldl_reasons (ingest : IngestBehavior) (projects : List String)
    (st : EventsStats × List DbOp) :
    (projects.foldl (eventsProjectStep ingest) st).1.failure_reasons =
      st.1.failure_reasons ++ (projects.map (projectReasonEntries ingest)).flatten := by
  induction projects generalizing st with
  | nil => simp
  | cons p rest ih =>
    simp [List.foldl_cons, ih, (eventsProjectStep_eq ingest st p).2.2, List.append_assoc]

/-- C2.  Unit-level failure isolation in the events stage: if
`ingest_project` raises for project `p` with message `msg`, the stage rolls
back exactly that project's transaction (every other successfully ingested
project is committed, in input order), counts the failing projects in
`stats.failed_projects`, records `(p, [msg])` among the failure reasons,
and still returns `success = true`. -/
theorem c2_events_unit_failure_isolation (ingest : IngestBehavior)
    (projects : List String) (p msg : String) (hmem : p ∈ projects)
    (hfail : ingest p = .error msg) :
    (run_events_stage ingest projects).1.success = true ∧
      (run_events_stage ingest projects).2 = projects.map (projectDbOp ingest) ∧
      projectDbOp ingest p = DbOp.rollback p ∧
      (∀ q r, q ∈ projects → ingest q = .ok r → projectDbOp ingest q = DbOp.commit q) ∧
      (run_events_stage ingest projects).1.stats.failedProjects =
        (projects.filter (projectFails ingest)).length ∧
      (p, [msg]) ∈ (run_events_stage ingest projects).1.stats.failureReasons := by
  have hne : ¬projects.isEmpty := by
    cases projects with
    | nil => cases hmem
    | cons a rest => simp
  refine ⟨?_, ?_, ?_, ?_, ?_, ?_⟩
  · simp [run_events_stage, hne]
  · simp only [run_events_stage, if_neg hne]
    exact events_foldl_ops ingest projects _
  · unfold projectDbOp
    rw [hfail]
  · intro q r _ hq
    unfold projectDbOp
    rw [hq]
  · simp only [run_events_stage, if_neg hne, EventsStageStats.failedProjects]
    rw [events_foldl_failed]
    simp
  · simp only [run_events_stage, if_neg hne, EventsStageStats.failureReasons]
    rw [events_foldl_reasons]
    simp only [List.nil_append]
    exact List.mem_flatten.mpr
      ⟨projectReasonEntries ingest p, List.mem_map_of_mem _ hmem,
       by unfold projectReasonEntries; rw [hfail]; simp⟩

/-- Witness behavior for C2: a two-project tracked set where ingestion
raises for the first project and succeeds for the second. -/
def demoIngest : IngestBehavior := fun name =>
  if name = "acme/broken" then .error "boom"
  else .ok { updated_count := 3, skipped_event_update := false, failure_reasons := [] }

theorem c2_events_unit_failure_isolation_witness :
    (run_events_stage demoIngest ["acme/broken", "acme/ok"]).1.success = true ∧
      (run_events_stage demoIngest ["acme/broken", "acme/ok"]).2 =
        ["acme/broken", "acme/ok"].map (projectDbOp demoIngest) ∧
      projectDbOp demoIngest "acme/broken" = DbOp.rollback "acme/broken" ∧
      (∀ q r, q ∈ ["acme/broken", "acme/ok"] → demoIngest q = .ok r →
        projectDbOp demoIngest q = DbOp.commit q) ∧
      (run_events_stage demoIngest ["acme/broken", "acme/ok"]).1.stats.failedProjects =
        (["acme/broken", "acme/ok"].filter (projectFails demoIngest)).length ∧
      ("acme/broken", ["boom"]) ∈
        (run_events_stage demoIngest ["acme/broken", "acme/ok"]).1.stats.failureReasons :=
  c2_events_unit_failure_isolation demoIngest ["acme/broken", "acme/ok"]
    "acme/broken" "boom" (by decide) rfl
/-! ## Completion webhook dispatch
(`PortCrawlerOrchestrator._dispatch_completion_webhook`, lines 198-245)

The HTTP POST is a collaborator: each attempt either yields a response with
a status code or raises, embedded as `Nat → AttemptOutcome` indexed by the
1-based attempt number.  The backoff sleep between attempts does not affect
the returned value. -/

/-- One HTTP POST attempt: a response, or a raised transport exception. -/
inductive AttemptOutcome where
  | response (status_code : Nat)
  | raises (msg : String)
deriving Repr, DecidableEq

/-- The dict returned by `_dispatch_completion_webhook` when the webhook is
configured. -/
inductive WebhookOutcome where
  | sent (attempts : Nat) (status_code : Nat)
  | failed (attempts : Nat) (error : String)
deriving Repr, DecidableEq

/-- Whether an attempt counts as failed (status `>= 400`, or an
exception). -/
def attemptFails : AttemptOutcome → Bool
  | .response code => if code < 400 then false else true
  | .raises _ => true

/-- The `last_error` string an attempt leaves behind (lines 230-232). -/
def attemptErrorMsg : AttemptOutcome → String
  | .response code => "HTTP " ++ toString code
  | .raises msg => msg

/-- The retry loop (lines 218-235) over the 1-based attempt numbers still
to try, threading `last_error`. -/
def webhookTryAttempts (attempts : Nat → AttemptOutcome) (max_retries : Nat) :
    List Nat → Option String → WebhookOutcome
  | [], last_error =>
    .failed max_retries (sanitize_for_log (last_error.getD "unknown error"))
  | a :: rest, _ =>
    match attempts a with
    | .response code =>
      if code < 400 then .sent a code
      else webhookTryAttempts attempts max_retries rest (some ("HTTP " ++ toString code))
    | .raises msg => webhookTryAttempts attempts max_retries rest (some msg)

/-- Python truthiness fallback for the configured retry count
(`int(getattr(settings, "CRAWLER_WEBHOOK_MAX_RETRIES", 3) or 3)`,
line 215): an unset or zero setting falls back to 3. -/
def configuredRetries (cfg : Option Nat) : Nat :=
  match cfg with
  | none => 3
  | some 0 => 3
  | some n => n

/-- `_dispatch_completion_webhook` (lines 198-245): returns `None` without
touching the network when the URL or secret strips to blank; otherwise runs
at most `max(configured, 1)` attempts, succeeding on the first response
with status `< 400`.  The signing of the payload is modelled separately
(`signedWebhookPayload`); it does not influence the retry contract. -/
def dispatch_completion_webhook (raw_url raw_secret : String)
    (cfg_retries : Option Nat) (attempts : Nat → AttemptOutcome) :
    Option WebhookOutcome :=
  let webhook_url := pyStrip raw_url
  let webhook_secret := pyStrip raw_secret
  if webhook_url = "" ∨ webhook_secret = "" then none
  else
    let max_retries := max (configuredRetries cfg_retries) 1
    some (webhookTryAttempts attempts max_retries (List.range' 1 max_retries) none)

theorem webhookTryAttempts_all_fail (attempts : Nat → AttemptOutcome)
    (max_retries : Nat) (l : List Nat) (le : Option String)
    (hl : l ≠ []) (hfail : ∀ a ∈ l, attemptFails (attempts a) = true) :
    webhookTryAttempts attempts max_retries l le =
      .failed max_retries
        (sanitize_for_log (attemptErrorMsg (attempts (l.getLast hl)))) := by
  induction l generalizing le with
  | nil => exact absurd rfl hl
  | cons a rest ih =>
    have ha : attemptFails (attempts a) = true := hfail a (by simp)
    have hstep : webhookTryAttempts attempts max_retries (a :: rest) le =
        webhookTryAttempts attempts max_retries rest
          (some (attemptErrorMsg (attempts a))) := by
      cases h : attempts a with
      | response code =>
        by_cases hc : code < 400
        · rw [h] at ha
          simp [attemptFails, hc] at ha
        · rw [webhookTryAttempts, h]
          simp [hc, attemptErrorMsg]
      | raises msg =>
        rw [webhookTryAttempts, h]
        simp [attemptErrorMsg]
    rw [hstep]
    cases rest with
    | nil =>
      rw [webhookTryAttempts]
      simp [List.getLast]
    | cons b tail =>
      have hrest : (b :: tail : List Nat) ≠ [] := by simp
      rw [ih _ hrest (fun x hx => hfail x (List.mem_cons_of_mem _ hx))]
      have hlast : (a :: b :: tail : List Nat).getLast hl =
          (b :: tail).getLast hrest := List.getLast_cons hrest
      rw [hlast]

theorem webhookTryAttempts_first_success (attempts : Nat → AttemptOutcome)
    (max_retries : Nat) (start len : Nat) (le : Option String) (n code : Nat)
    (hn : start ≤ n) (hlt : n < start + len)
    (hok : attempts n = .response code) (hcode : code < 400)
    (hbefore : ∀ i, start ≤ i → i < n → attemptFails (attempts i) = true) :
    webhookTryAttempts attempts max_retries (List.range' start len) le =
      .sent n code := by
  induction len generalizing start le with
  | zero => omega
  | succ k ih =>
    rw [List.range'_succ]
    by_cases hfirst : start = n
    · subst hfirst
      simp [webhookTryAttempts, hok, hcode]
    · have hstart : attemptFails (attempts start) = true :=
        hbefore start (Nat.le_refl _) (by omega)
      simp only [webhookTryAttempts]
      cases h : attempts start with
      | response c =>
        rw [h] at hstart
        unfold attemptFails at hstart
        by_cases hc : c < 400
        · simp [hc] at hstart
        · simp only [if_neg hc]
          exact ih (start + 1) _ (by omega) (by omega)
            (fun i hi1 hi2 => hbefore i (by omega) hi2)
      | raises msg =>
        exact ih (start + 1) _ (by omega) (by omega)
          (fun i hi1 hi2 => hbefore i (by omega) hi2)

/-- C5.  Webhook dispatch contract: a blank (or whitespace-only) URL or
secret short-circuits to `None` independently of any network behavior; with
both configured, the dispatcher returns `sent` with the attempt count and
status code on the first attempt whose status is `< 400`, and after
`max_retries` failing attempts returns `failed` carrying `max_retries` and
the sanitized message of the last failure.  The embedding is a total
function: no attempt outcome (response or exception) propagates. -/
theorem c5_webhook_dispatch_contract (raw_url raw_secret : String)
    (cfg_retries : Option Nat) (attempts : Nat → AttemptOutcome) :
    ((pyStrip raw_url = "" ∨ pyStrip raw_secret = "") →
      dispatch_completion_webhook raw_url raw_secret cfg_retries attempts = none) ∧
    (pyStrip raw_url ≠ "" → pyStrip raw_secret ≠ "" →
      (∀ n code, 1 ≤ n → n ≤ max (configuredRetries cfg_retries) 1 →
        attempts n = .response code → code < 400 →
        (∀ i, 1 ≤ i → i < n → attemptFails (attempts i) = true) →
        dispatch_completion_webhook raw_url raw_secret cfg_retries attempts =
          some (.sent n code)) ∧
      ((∀ i, 1 ≤ i → i ≤ max (configuredRetries cfg_retries) 1 →
          attemptFails (attempts i) = true) →
        dispatch_completion_webhook raw_url raw_secret cfg_retries attempts =
          some (.failed (max (configuredRetries cfg_retries) 1)
            (sanitize_for_log
              (attemptErrorMsg (attempts (max (configuredRetries cfg_retries) 1))))))) := by
  constructor
  · intro hblank
    unfold dispatch_completion_webhook
    simp only
    rw [if_pos hblank]
  · intro hurl hsecret
    have hcond : ¬(pyStrip raw_url = "" ∨ pyStrip raw_secret = "") := by
      rintro (h | h)
      · exact hurl h
      · exact hsecret h
    constructor
    · intro n code h1 h2 hok hcode hbefore
      unfold dispatch_completion_webhook
      simp only
      rw [if_neg hcond]
      congr 1
      exact webhookTryAttempts_first_success attempts _ 1 _ none n code h1
        (by omega) hok hcode hbefore
    · intro hallfail
      unfold dispatch_completion_webhook
      simp only
      rw [if_neg hcond]
      congr 1
      have hM : 1 ≤ max (configuredRetries cfg_retries) 1 := Nat.le_max_right _ _
      have hne : List.range' 1 (max (configuredRetries cfg_retries) 1) ≠ [] := by
        intro h
        have := congrArg List.length h
        simp at this
      rw [webhookTryAttempts_all_fail attempts _ _ none hne
        (fun a ha => by
          rw [List.mem_range'_1] at ha
          exact hallfail a ha.1 (by omega))]
      congr 2
      have : (List.range' 1 (max (configuredRetries cfg_retries) 1)).getLast hne =
          max (configuredRetries cfg_retries) 1 := by
        rw [List.getLast_eq_getElem]
        simp [List.getElem_range']
      rw [this]

/-- Witness for C5: a deployment with a configured endpoint whose first
attempt times out and whose second attempt returns 204, plus a blank-secret
deployment that skips dispatch. -/
def demoAttempts : Nat → AttemptOutcome := fun n =>
  if n = 1 then .raises "timed out" else .response 204

theorem c5_webhook_dispatch_contract_witness :
    dispatch_completion_webhook "https://hooks.example/done" "  " (some 3)
        demoAttempts = none ∧
    dispatch_completion_webhook "https://hooks.example/done" "s3cret" (some 3)
        demoAttempts = some (.sent 2 204) ∧
    dispatch_completion_webhook "https://hooks.example/done" "s3cret" (some 3)
        (fun _ => .response 503) =
      some (.failed 3 (sanitize_for_log "HTTP 503")) := by
  refine ⟨?_, ?_, ?_⟩
  · exact (c5_webhook_dispatch_contract "https://hooks.example/done" "  "
      (some 3) demoAttempts).1 (Or.inr (by decide))
  · exact ((c5_webhook_dispatch_contract "https://hooks.example/done" "s3cret"
      (some 3) demoAttempts).2 (by decide) (by decide)).1 2 204 (by decide)
      (by decide) rfl (by decide)
      (fun i h1 h2 => by interval_cases i <;> decide)
  · have := ((c5_webhook_dispatch_contract "https://hooks.example/done" "s3cret"
      (some 3) (fun _ => .response 503)).2 (by decide) (by decide)).2
      (fun i _ _ => by decide)
    simpa using this
/-! ## Fetch-outcome contract (`app/crawlers/port/contracts.py`) -/

/-- `FetchState` (lines 13-19). -/
inductive FetchState where
  | OK
  | UNCHANGED
  | EMPTY
  | FAILED
deriving Repr, DecidableEq

/-- `FetchResult` (lines 22-46): a dataclass separating payload from fetch
semantics.  The Python dataclass performs no validation, so any combination
of `state` and optional fields is constructible. -/
structure FetchResult (T : Type) where
  state : FetchState
  data : Option T := none
  etag : Option String := none
  status_code : Option Nat := none
  error : Option String := none
deriving Repr, DecidableEq

/-- `is_ok` property (lines 32-34), derived from `state`. -/
def FetchResult.is_ok (r : FetchResult T) : Bool := r.state = FetchState.OK

/-- `is_unchanged` property (lines 36-38). -/
def FetchResult.is_unchanged (r : FetchResult T) : Bool := r.state = FetchState.UNCHANGED

/-- `is_empty` property (lines 40-42). -/
def FetchResult.is_empty (r : FetchResult T) : Bool := r.state = FetchState.EMPTY

/-- `is_failed` property (lines 44-46). -/
def FetchResult.is_failed (r : FetchResult T) : Bool := r.state = FetchState.FAILED

/-- Count of the accessors that report `true`. -/
def FetchResult.activeTags (r : FetchResult T) : Nat :=
  (if r.is_ok then 1 else 0) + (if r.is_unchanged then 1 else 0) +
    (if r.is_empty then 1 else 0) + (if r.is_failed then 1 else 0)

/-- Modelled from the spec: the API client (`app/crawlers/port/client.py`,
not in the source tree) creates fetch results only through the four outcome
shapes of §3 — `OK(payload, etag)`, `UNCHANGED(etag)`, `EMPTY(etag)`,
`FAILED(statusCode, errorMessage)` — where, per the in-src contract test
`test_list_releases_returns_empty_contract_for_empty_200`, the `EMPTY`
outcome carries the endpoint's empty collection as its (non-`None`)
payload, while `UNCHANGED` and `FAILED` carry none.  `emptyPayload` is the
endpoint's empty-collection value (`[]` for the list contracts). -/
inductive ClientConstructed (emptyPayload : T) : FetchResult T → Prop where
  | ok (payload : T) (etag : Option String) :
      ClientConstructed emptyPayload
        { state := .OK, data := some payload, etag := etag }
  | unchanged (etag : Option String) :
      ClientConstructed emptyPayload { state := .UNCHANGED, etag := etag }
  | empty (etag : Option String) :
      ClientConstructed emptyPayload
        { state := .EMPTY, data := some emptyPayload, etag := etag }
  | failed (status_code : Option Nat) (error : Option String) :
      ClientConstructed emptyPayload
        { state := .FAILED, status_code := status_code, error := error }

/-- The client's `EMPTY` outcome for an empty 200 list response, exactly as
pinned by `test_list_releases_returns_empty_contract_for_empty_200`
(`state == EMPTY`, `data == []`, `etag == '"release-etag"'`). -/
def emptyReleaseResult : FetchResult (List Nat) :=
  { state := .EMPTY, data := some [], etag := some "\"release-etag\"" }

/-- C6 counterexample.  The claim's payload clause fails even for results
the client itself produces: the in-src contract test pins the `EMPTY`
outcome to `data == []`, a non-`None` payload outside the `OK` state (and
the dataclass performs no validation, so such values are freely
constructible as well). -/
theorem c6_fetch_counterexample :
    emptyReleaseResult.data.isSome = true ∧
      emptyReleaseResult.state ≠ FetchState.OK ∧
      emptyReleaseResult.is_ok = false := by
  refine ⟨rfl, ?_, rfl⟩
  intro h
  cases h

/-- C6 (amended).  For every `FetchResult` value — however constructed —
exactly one of the derived accessors `is_ok`, `is_unchanged`, `is_empty`,
`is_failed` is true (each is computed from the single `state` field, never
stored).  For results built through the client's four outcome
constructors, the payload discipline pinned by the client contract tests
holds: `data` is non-`None` only in the `OK` and `EMPTY` states, the
`EMPTY` payload is exactly the endpoint's empty collection, and
`UNCHANGED`/`FAILED` results carry no payload. -/
theorem c6_fetch_tagged_union (T : Type) (emptyPayload : T) (r : FetchResult T) :
    r.activeTags = 1 ∧
      (ClientConstructed emptyPayload r →
        (r.data.isSome = true →
            r.state = FetchState.OK ∨ r.state = FetchState.EMPTY) ∧
          (r.state = FetchState.EMPTY → r.data = some emptyPayload) ∧
          (r.state = FetchState.UNCHANGED ∨ r.state = FetchState.FAILED →
            r.data = none)) := by
  constructor
  · unfold FetchResult.activeTags FetchResult.is_ok FetchResult.is_unchanged
      FetchResult.is_empty FetchResult.is_failed
    cases r.state <;> simp
  · intro hc
    cases hc <;> refine ⟨?_, ?_, ?_⟩ <;> simp

theorem c6_fetch_tagged_union_witness :
    emptyReleaseResult.activeTags = 1 ∧
      ((emptyReleaseResult.data.isSome = true →
          emptyReleaseResult.state = FetchState.OK ∨
            emptyReleaseResult.state = FetchState.EMPTY) ∧
        (emptyReleaseResult.state = FetchState.EMPTY →
          emptyReleaseResult.data = some ([] : List Nat)) ∧
        (emptyReleaseResult.state = FetchState.UNCHANGED ∨
            emptyReleaseResult.state = FetchState.FAILED →
          emptyReleaseResult.data = none)) :=
  ⟨(c6_fetch_tagged_union (List Nat) [] emptyReleaseResult).1,
   (c6_fetch_tagged_union (List Nat) [] emptyReleaseResult).2
     (ClientConstructed.empty (some "\"release-etag\""))⟩

/-! ## Event classifier (`app/services/port/event_classifier.py`)

`_count_matches` counts `re.findall(pattern, text, IGNORECASE | MULTILINE)`
results.  The fixed pattern set uses only literals, character classes,
`(?:...)` alternation, greedy `?` / `+` / `*` on classes, `\b` and
(multiline) `^`; these are embedded as a small backtracking matcher with
Python's ordered-alternation and greedy-quantifier preference. -/

/-- Pattern AST covering the classifier's regexes. -/
inductive RE where
  | eps
  | cls (f : Char → Bool)
  | seq (a b : RE)
  | alt (a b : RE)
  | rep1 (f : Char → Bool)
  | rep0 (f : Char → Bool)
  | wordB
  | lineStart

/-- Python `\w` over the classifier's ASCII inputs. -/
def isWordChar (c : Char) : Bool := c.isAlphanum || c == '_'

/-- Python `\s` (ASCII whitespace). -/
def isPySpace (c : Char) : Bool :=
  c == ' ' || c == '\t' || c == '\n' || c == '\r' || c == '\x0b' || c == '\x0c'

/-- `\b`: word-character status differs between the previous character and
the next one. -/
def atBoundary (prev : Option Char) (s : List Char) : Bool :=
  let pw := match prev with | some c => isWordChar c | none => false
  let nw := match s with | c :: _ => isWordChar c | [] => false
  pw != nw

/-- `^` under `re.MULTILINE`: start of input or just after a newline. -/
def atLineStart (prev : Option Char) : Bool :=
  match prev with
  | none => true
  | some c => c == '\n'

/-- Greedy zero-or-more repetition of a character class, longest first with
backtracking into the continuation `k`; the state is (previous character,
remaining input). -/
def repGreedy (f : Char → Bool)
    (k : Option Char → List Char → Option (Option Char × List Char)) :
    Option Char → List Char → Option (Option Char × List Char)
  | prev, [] => k prev []
  | prev, c :: cs =>
    if f c then
      match repGreedy f k (some c) cs with
      | some r => some r
      | none => k prev (c :: cs)
    else k prev (c :: cs)

/-- Backtracking matcher in continuation-passing style; returns the state
after the preferred (Python-order) match, if any. -/
def reMatch (re : RE)
    (k : Option Char → List Char → Option (Option Char × List Char)) :
    Option Char → List Char → Option (Option Char × List Char) :=
  match re with
  | .eps => k
  | .cls f => fun _ s =>
    match s with
    | [] => none
    | c :: cs => if f c then k (some c) cs else none
  | .seq a b => reMatch a (reMatch b k)
  | .alt a b => fun p s =>
    match reMatch a k p s with
    | some r => some r
    | none => reMatch b k p s
  | .rep1 f => fun _ s =>
    match s with
    | [] => none
    | c :: cs => if f c then repGreedy f k (some c) cs else none
  | .rep0 f => repGreedy f k
  | .wordB => fun p s => if atBoundary p s then k p s else none
  | .lineStart => fun p s => if atLineStart p then k p s else none

/-- Attempt a match anchored at the current position. -/
def reMatchHere (re : RE) (p : Option Char) (s : List Char) :
    Option (Option Char × List Char) :=
  reMatch re (fun p' s' => some (p', s')) p s

/-- `len(re.findall(...))`: scan left to right, consuming each
non-overlapping match (a zero-width match advances one position, as in
Python). -/
def countMatchesAux (re : RE) : Nat → Option Char → List Char → Nat
  | 0, _, _ => 0
  | fuel + 1, p, s =>
    match reMatchHere re p s with
    | some (p', s') =>
      if s'.length < s.length then 1 + countMatchesAux re fuel p' s'
      else
        match s with
        | [] => 1
        | c :: cs => 1 + countMatchesAux re fuel (some c) cs
    | none =>
      match s with
      | [] => 0
      | c :: cs => countMatchesAux re fuel (some c) cs

/-- Number of matches of one pattern in `text`. -/
def countRE (re : RE) (text : String) : Nat :=
  countMatchesAux re (text.data.length + 1) none text.data

/-- Case-insensitive literal character (`re.IGNORECASE`); the classifier's
patterns are written in lowercase. -/
def lit1 (c : Char) : RE := .cls (fun x => x.toLower == c)

/-- Case-insensitive literal string. -/
def reStr (s : String) : RE := s.data.foldr (fun c acc => RE.seq (lit1 c) acc) .eps

/-- Greedy `?`. -/
def reOpt (a : RE) : RE := .alt a .eps

/-- Ordered alternation `(?:a|b|...)`. -/
def reAlts : List RE → RE
  | [] => .eps
  | [a] => a
  | a :: rest => .alt a (reAlts rest)

def reSeqs : List RE → RE
  | [] => .eps
  | [a] => a
  | a :: rest => .seq a (reSeqs rest)

def wb : RE := .wordB

def reDigit : RE := .cls Char.isDigit

def reSp1 : RE := .rep1 isPySpace

/-- `_KEYWORDS` (lines 22-64), one `RE` per regex, in source order. -/
def categoryKeywordREs : List (List RE) :=
  [ [ reSeqs [wb, reStr "security", wb],
      reSeqs [wb, reStr "cve-", reDigit, reDigit, reDigit, reDigit, lit1 '-',
        .rep1 Char.isDigit, wb],
      reSeqs [wb, reStr "vulnerability", wb],
      reSeqs [wb, reStr "exploit", wb],
      reSeqs [wb, reStr "xss", wb],
      reSeqs [wb, reStr "csrf", wb],
      reSeqs [wb, reStr "auth", reOpt (reStr "entication"), reSp1,
        reStr "bypass", wb] ],
    [ reSeqs [wb, reStr "breaking", reSp1, reStr "change", reOpt (reStr "s"), wb],
      reSeqs [wb, reStr "breaking-change", wb],
      reSeqs [wb, reStr "backward", reOpt (reStr "s"), reSp1,
        reStr "incompatible", wb],
      reSeqs [wb, reStr "incompatible", reSp1, reStr "change", wb],
      reSeqs [wb, reStr "migration", reSp1, reStr "required", wb],
      reSeqs [wb, reStr "deprecated", wb],
      reSeqs [wb, reStr "deprecation", wb] ],
    [ reSeqs [wb, reStr "feature", reOpt (reStr "s"), wb],
      reSeqs [wb, reStr "new", wb],
      reSeqs [wb, reStr "introduc",
        reAlts [reStr "e", reStr "es", reStr "ed", reStr "ing"], wb],
      reSeqs [wb, reStr "add",
        reOpt (reAlts [reStr "s", reStr "ed", reStr "ing"]), wb],
      reSeqs [wb, reStr "support",
        reOpt (reAlts [reStr "s", reStr "ed", reStr "ing"]), wb] ],
    [ reSeqs [wb, reStr "fix",
        reOpt (reAlts [reStr "es", reStr "ed", reStr "ing"]), wb],
      reSeqs [wb, reStr "bug",
        reOpt (reAlts [reStr "s", reStr "fix"]), wb],
      reSeqs [wb, reStr "hotfix", wb],
      reSeqs [wb, reStr "regression", wb],
      reSeqs [wb, reStr "resolve",
        reOpt (reAlts [reStr "s", reStr "d", reStr "ing"]), wb],
      reSeqs [wb, reStr "patch",
        reOpt (reAlts [reStr "es", reStr "ed", reStr "ing"]), wb] ],
    [ reSeqs [wb, reStr "perf", reOpt (reStr "ormance"), wb],
      reSeqs [wb, reStr "optimi", .cls (fun c => c.toLower == 's' || c.toLower == 'z'),
        reAlts [reStr "e", reStr "es", reStr "ed", reStr "ing", reStr "ation"], wb],
      reSeqs [wb, reStr "faster", wb],
      reSeqs [wb, reStr "latency", wb],
      reSeqs [wb, reStr "throughput", wb],
      reSeqs [wb, reStr "memory", reSp1, reStr "usage", wb] ] ]

/-- `_SECTION_HINTS` (lines 66-72). -/
def categorySectionREs : List (List RE) :=
  [ [ reSeqs [.lineStart, .rep1 (fun c => c == '#'), .rep0 isPySpace,
        reStr "security"] ],
    [ reSeqs [.lineStart, .rep1 (fun c => c == '#'), .rep0 isPySpace,
        reStr "breaking"] ],
    [ reSeqs [.lineStart, .rep1 (fun c => c == '#'), .rep0 isPySpace,
        reAlts [reStr "feature", reStr "new"]] ],
    [ reSeqs [.lineStart, .rep1 (fun c => c == '#'), .rep0 isPySpace,
        reAlts [reStr "fix", reStr "bug"]] ],
    [ reSeqs [.lineStart, .rep1 (fun c => c == '#'), .rep0 isPySpace,
        reAlts [reStr "perf", reStr "performance"]] ] ]

/-- Modelled from the spec: `EventType` lives in
`app/models/project_event.py`, which is not in the source tree.  The five
scored categories plus `misc`, with lowercase string values (compare
`test_classify_event_returns_lowercase_types`). -/
inductive EventType where
  | security
  | breaking
  | feature
  | fix
  | perf
  | misc
deriving Repr, DecidableEq

/-- `EventType.value`: the lowercase string stored per event. -/
def EventType.value : EventType → String
  | .security => "security"
  | .breaking => "breaking"
  | .feature => "feature"
  | .fix => "fix"
  | .perf => "perf"
  | .misc => "misc"

/-- `_PRIORITY` (lines 74-80); `misc` is never ranked, its value is
irrelevant. -/
def EventType.priority : EventType → Nat
  | .security => 0
  | .breaking => 1
  | .feature => 2
  | .fix => 3
  | .perf => 4
  | .misc => 5

/-- The iteration order of the scoring loop (line 97). -/
def scoredTypes : List EventType :=
  [.security, .breaking, .feature, .fix, .perf]

def keywordREs : EventType → List RE
  | .security => categoryKeywordREs[0]!
  | .breaking => categoryKeywordREs[1]!
  | .feature => categoryKeywordREs[2]!
  | .fix => categoryKeywordREs[3]!
  | .perf => categoryKeywordREs[4]!
  | .misc => []

def sectionREs : EventType → List RE
  | .security => categorySectionREs[0]!
  | .breaking => categorySectionREs[1]!
  | .feature => categorySectionREs[2]!
  | .fix => categorySectionREs[3]!
  | .perf => categorySectionREs[4]!
  | .misc => []

/-- `_count_matches` (lines 83-87): total match count over a pattern set. -/
def count_matches (text : String) (patterns : List RE) : Nat :=
  (patterns.map (fun re => countRE re text)).foldl (· + ·) 0

/-- Scores (lines 96-101):
`2 * title keyword matches + body keyword matches + 2 * body section
matches`. -/
def eventScores (title body : String) (t : EventType) : Nat :=
  count_matches title (keywordREs t) * 2 + count_matches body (keywordREs t) +
    count_matches body (sectionREs t) * 2

/-- Descending insertion by the sort key of line 103
(`(score, -priority)` descending); the keys are pairwise distinct because
priorities are, so this computes exactly Python's `sorted(...)` order. -/
def insertRanked (scores : EventType → Nat) (t : EventType) :
    List EventType → List EventType
  | [] => [t]
  | u :: rest =>
    if scores u < scores t ∨ (scores t = scores u ∧ t.priority < u.priority) then
      t :: u :: rest
    else u :: insertRanked scores t rest

/-- `ranked` (line 103). -/
def rankedTypes (scores : EventType → Nat) : List EventType :=
  scoredTypes.foldr (insertRanked scores) []

/-- Selection logic (lines 104-115), factored out of `classify_event` over
the computed scores. -/
def selectEventTypes (scores : EventType → Nat) : List EventType :=
  let ranked := rankedTypes scores
  let selected := (ranked.filter (fun t => 2 ≤ scores t)).take 2
  let selected :=
    if 0 < scores .security ∧ .security ∉ selected then
      (EventType.security :: selected).take 2
    else selected
  if selected.isEmpty then
    match ranked with
    | top :: _ => if 0 < scores top then [top] else [.misc]
    | [] => [.misc]
  else selected

/-- `ClassifiedEvent` (lines 12-19). -/
structure ClassifiedEvent where
  event_types : List String
  impact_score : Nat
  is_security : Bool
  is_breaking : Bool
deriving Repr, DecidableEq

/-- `classify_event` (lines 90-136). -/
def classify_event (title : String) (body : String := "") : ClassifiedEvent :=
  let scores := eventScores title body
  let selected := selectEventTypes scores
  let is_security := EventType.security ∈ selected
  let is_breaking := EventType.breaking ∈ selected
  let impact_score := 1 + (if is_security then 4 else 0) +
    (if is_breaking then 3 else 0) +
    (if EventType.feature ∈ selected then 2 else 0) +
    (if EventType.fix ∈ selected ∨ EventType.perf ∈ selected then 1 else 0)
  { event_types := selected.map EventType.value
    impact_score := min 10 impact_score
    is_security := decide (EventType.security ∈ selected)
    is_breaking := decide (EventType.breaking ∈ selected) }
/-- C7.  Security example: classifying title `"Security hotfix"` with body
`"Fixes CVE-2026-9999 authentication bypass vulnerability."` yields event
types containing `"security"` and `is_security = true` (the embedding
computes scores security=5, fix=3, so both are selected). -/
theorem c7_classify_security_example :
    "security" ∈ (classify_event "Security hotfix"
        "Fixes CVE-2026-9999 authentication bypass vulnerability.").event_types ∧
      (classify_event "Security hotfix"
        "Fixes CVE-2026-9999 authentication bypass vulnerability.").is_security
        = true := by
  decide

/-- A score assignment for the five ranked categories (security fixed). -/
def scoresOf (ss sb sf sx sp : Nat) : EventType → Nat
  | .security => ss
  | .breaking => sb
  | .feature => sf
  | .fix => sx
  | .perf => sp
  | .misc => 0

/-- The spec's fallback pick, stated independently of the ranking code:
the category with the highest score, ties broken by the fixed priority
order `security < breaking < feature < fix < perf`. -/
def specTopCategory (scores : EventType → Nat) : EventType :=
  scoredTypes.foldl
    (fun best t =>
      if scores best < scores t ∨
          (scores t = scores best ∧ t.priority < best.priority) then t
      else best)
    .security

theorem selectTypes_low_scores (sb sf sx sp : Nat) (hb : sb < 2) (hf : sf < 2)
    (hx : sx < 2) (hp : sp < 2) :
    selectEventTypes (scoresOf 0 sb sf sx sp) =
      [if 0 < scoresOf 0 sb sf sx sp (specTopCategory (scoresOf 0 sb sf sx sp))
       then specTopCategory (scoresOf 0 sb sf sx sp) else .misc] := by
  interval_cases sb <;> interval_cases sf <;> interval_cases sx <;>
    interval_cases sp <;> decide

/-- C8.  Classifier fallback: whenever no category reaches score 2 and the
security score is 0, the classifier returns exactly one event type — the
highest-scoring category under the fixed priority tie-break when its score
is positive, else `misc`; and in particular
`classify(title="v0.1.0", body="abcdef1234567890")` yields `["misc"]`. -/
theorem c8_classifier_fallback (title body : String)
    (hlow : ∀ t, eventScores title body t < 2)
    (hsec : eventScores title body .security = 0) :
    (classify_event title body).event_types =
        [(if 0 < eventScores title body (specTopCategory (eventScores title body))
          then specTopCategory (eventScores title body)
          else .misc).value] ∧
      (classify_event "v0.1.0" "abcdef1234567890").event_types = ["misc"] := by
  constructor
  · have hfun : eventScores title body =
        scoresOf 0 (eventScores title body .breaking)
          (eventScores title body .feature) (eventScores title body .fix)
          (eventScores title body .perf) := by
      funext t
      cases t with
      | security => exact hsec
      | breaking => rfl
      | feature => rfl
      | fix => rfl
      | perf => rfl
      | misc => rfl
    have h1 : (classify_event title body).event_types =
        (selectEventTypes (eventScores title body)).map EventType.value := rfl
    rw [h1, hfun,
      selectTypes_low_scores _ _ _ _ (hlow .breaking) (hlow .feature)
        (hlow .fix) (hlow .perf)]
    simp
  · decide

theorem c8_classifier_fallback_witness :
    (classify_event "v0.1.0" "abcdef1234567890").event_types =
        [(if 0 < eventScores "v0.1.0" "abcdef1234567890"
              (specTopCategory (eventScores "v0.1.0" "abcdef1234567890"))
          then specTopCategory (eventScores "v0.1.0" "abcdef1234567890")
          else .misc).value] ∧
      (classify_event "v0.1.0" "abcdef1234567890").event_types = ["misc"] :=
  c8_classifier_fallback "v0.1.0" "abcdef1234567890"
    (fun t => by cases t <;> decide) (by decide)
/-! ## Completion-webhook payload and HMAC-SHA256 signature
(`_build_completion_webhook_payload`, lines 186-196, and the signing block
of `_dispatch_completion_webhook`, lines 205-213)

`hashlib.sha256` / `hmac.new(...).hexdigest()` are embedded as an
executable SHA-256 over byte lists (32-bit words as `Nat` reduced
`% 2^32`), and `json.dumps(payload, ensure_ascii=False,
separators=(",", ":"), sort_keys=True)` as the canonical serializer of the
fixed three-key payload. -/

/-- 32-bit right rotation. -/
def rotr32 (n x : Nat) : Nat := ((x >>> n) ||| (x <<< (32 - n))) % 4294967296

def sha256K : List Nat :=
  [1116352408, 1899447441, 3049323471, 3921009573, 961987163, 1508970993,
   2453635748, 2870763221, 3624381080, 310598401, 607225278, 1426881987,
   1925078388, 2162078206, 2614888103, 3248222580, 3835390401, 4022224774,
   264347078, 604807628, 770255983, 1249150122, 1555081692, 1996064986,
   2554220882, 2821834349, 2952996808, 3210313671, 3336571891, 3584528711,
   113926993, 338241895, 666307205, 773529912, 1294757372, 1396182291,
   1695183700, 1986661051, 2177026350, 2456956037, 2730485921, 2820302411,
   3259730800, 3345764771, 3516065817, 3600352804, 4094571909, 275423344,
   430227734, 506948616, 659060556, 883997877, 958139571, 1322822218,
   1537002063, 1747873779, 1955562222, 2024104815, 2227730452, 2361852424,
   2428436474, 2756734187, 3204031479, 3329325298]

def sha256H0 : List Nat :=
  [1779033703, 3144134277, 1013904242, 2773480762, 1359893119, 2600822924,
   528734635, 1541459225]

/-- Big-endian 8-byte encoding of the bit length. -/
def bytesOfNat64 (n : Nat) : List Nat :=
  [n >>> 56 % 256, n >>> 48 % 256, n >>> 40 % 256, n >>> 32 % 256,
   n >>> 24 % 256, n >>> 16 % 256, n >>> 8 % 256, n % 256]

/-- SHA-256 padding: `0x80`, zeros to 56 mod 64, then the 64-bit bit
length. -/
def sha256pad (msg : List Nat) : List Nat :=
  let len := msg.length
  let padZeros := (64 + 55 - len % 64) % 64
  msg ++ [0x80] ++ List.replicate padZeros 0 ++ bytesOfNat64 (len * 8)

/-- Group bytes into big-endian 32-bit words. -/
def bytesToWords : List Nat → List Nat
  | b0 :: b1 :: b2 :: b3 :: rest =>
    (((b0 * 256 + b1) * 256 + b2) * 256 + b3) :: bytesToWords rest
  | _ => []

/-- Split into 64-byte chunks (fuel-based structural recursion so that the
definition reduces inside the kernel; `l.length` fuel suffices since each
step drops at least one byte). -/
def chunks64Aux : Nat → List Nat → List (List Nat)
  | 0, _ => []
  | _, [] => []
  | fuel + 1, b :: rest =>
    ((b :: rest).take 64) :: chunks64Aux fuel ((b :: rest).drop 64)

def chunks64 (l : List Nat) : List (List Nat) := chunks64Aux l.length l

def smallSigma0 (x : Nat) : Nat := rotr32 7 x ^^^ rotr32 18 x ^^^ (x >>> 3)

def smallSigma1 (x : Nat) : Nat := rotr32 17 x ^^^ rotr32 19 x ^^^ (x >>> 10)

def bigSigma0 (x : Nat) : Nat := rotr32 2 x ^^^ rotr32 13 x ^^^ rotr32 22 x

def bigSigma1 (x : Nat) : Nat := rotr32 6 x ^^^ rotr32 11 x ^^^ rotr32 25 x

/-- Extend the 16-word block to the 64-word message schedule. -/
def sha256schedule (w16 : List Nat) : List Nat :=
  (List.range 48).foldl
    (fun w _ =>
      let n := w.length
      w ++ [(smallSigma1 (w.getD (n - 2) 0) + w.getD (n - 7) 0 +
        smallSigma0 (w.getD (n - 15) 0) + w.getD (n - 16) 0) % 4294967296])
    w16

/-- One SHA-256 compression round over the state `[a,b,c,d,e,f,g,h]`. -/
def sha256round (w : List Nat) (st : List Nat) (i : Nat) : List Nat :=
  match st with
  | [a, b, c, d, e, f, g, h] =>
    let ch := (e &&& f) ^^^ ((4294967295 ^^^ e) &&& g)
    let temp1 := (h + bigSigma1 e + ch + sha256K.getD i 0 + w.getD i 0) % 4294967296
    let maj := (a &&& b) ^^^ (a &&& c) ^^^ (b &&& c)
    let temp2 := (bigSigma0 a + maj) % 4294967296
    [(temp1 + temp2) % 4294967296, a, b, c, (d + temp1) % 4294967296, e, f, g]
  | _ => st

/-- Compress one 16-word block into the running hash state. -/
def sha256compress (h : List Nat) (block : List Nat) : List Nat :=
  let w := sha256schedule block
  let fin := (List.range 64).foldl (sha256round w) h
  List.zipWith (fun x y => (x + y) % 4294967296) h fin

/-- Big-endian bytes of one 32-bit word. -/
def wordBytes (x : Nat) : List Nat :=
  [x >>> 24 % 256, x >>> 16 % 256, x >>> 8 % 256, x % 256]

/-- `hashlib.sha256(msg).digest()` over byte lists. -/
def sha256 (msg : List Nat) : List Nat :=
  let padded := sha256pad msg
  let final := (chunks64 padded).foldl
    (fun h blk => sha256compress h (bytesToWords blk)) sha256H0
  (final.map wordBytes).flatten

/-- `hmac.new(key, msg, sha256).digest()` (RFC 2104, block size 64). -/
def hmacSha256 (key msg : List Nat) : List Nat :=
  let k0 := if 64 < key.length then sha256 key else key
  let kpad := k0 ++ List.replicate (64 - k0.length) 0
  let ipadded := kpad.map (fun b => b ^^^ 0x36)
  let opadded := kpad.map (fun b => b ^^^ 0x5c)
  sha256 (opadded ++ sha256 (ipadded ++ msg))

def hexDigitChar (n : Nat) : Char :=
  if n < 10 then Char.ofNat (48 + n) else Char.ofNat (87 + n)

/-- Lowercase hex string of a byte list (`.hexdigest()`). -/
def hexOfBytes (bs : List Nat) : String :=
  ⟨(bs.map (fun b => [hexDigitChar (b / 16), hexDigitChar (b % 16)])).flatten⟩

/-- UTF-8 encoding of one character. -/
def utf8Char (c : Char) : List Nat :=
  let n := c.toNat
  if n < 0x80 then [n]
  else if n < 0x800 then [0xc0 ||| (n >>> 6), 0x80 ||| (n &&& 0x3f)]
  else if n < 0x10000 then
    [0xe0 ||| (n >>> 12), 0x80 ||| ((n >>> 6) &&& 0x3f), 0x80 ||| (n &&& 0x3f)]
  else
    [0xf0 ||| (n >>> 18), 0x80 ||| ((n >>> 12) &&& 0x3f),
     0x80 ||| ((n >>> 6) &&& 0x3f), 0x80 ||| (n &&& 0x3f)]

/-- `.encode("utf-8")`. -/
def utf8Bytes (s : String) : List Nat := (s.data.map utf8Char).flatten

set_option maxRecDepth 4096 in
/-- SHA-256 test vector: `sha256(b"abc")`. -/
theorem sha256_abc_vector :
    hexOfBytes (sha256 (utf8Bytes "abc")) =
      "ba7816bf8f01cfea414140de5dae2223b00361a396177a9cb410ff61f20015ad" := by
  decide

set_option maxRecDepth 8192 in
/-- HMAC-SHA256 test vector (RFC 4231 test case 2). -/
theorem hmac_sha256_rfc4231_vector :
    hexOfBytes (hmacSha256 (utf8Bytes "Jefe")
        (utf8Bytes "what do ya want for nothing?")) =
      "5bdcc146bf60754e6a042426089575c75a003f089d2739839dec58b964ec3843" := by
  decide
/-- `WEBHOOK_SCOPE` (line 35). -/
def WEBHOOK_SCOPE : String := "GIT_REPO"

/-- The completion payload built at line 192: `{job_id, scope,
completed_at}`. -/
structure WebhookPayload where
  job_id : String
  scope : String
  completed_at : String
deriving Repr, DecidableEq

/-- The fields of `run_stats` read by the payload builder. -/
structure RunStatsView where
  mode : Option String
  started_at : Option String
  completed_at : Option String
deriving Repr, DecidableEq

/-- Python truthiness of `run_stats.get(key) or fallback`: a missing key or
empty string falls back. -/
def pyStrOr (v : Option String) (dflt : String) : String :=
  match v with
  | none => dflt
  | some s => if s.isEmpty then dflt else s

/-- `_build_completion_webhook_payload` (lines 186-196); `now` stands for
`datetime.now(UTC).isoformat()`, used only when a field is missing or
empty. -/
def build_completion_webhook_payload (rs : RunStatsView) (now : String) :
    WebhookPayload :=
  let started_at := pyStrOr rs.started_at now
  let completed_at := pyStrOr rs.completed_at now
  let mode := pyStrOr rs.mode "daily"
  { job_id := "port-" ++ mode ++ "-" ++ started_at
    scope := WEBHOOK_SCOPE
    completed_at := completed_at }

/-- JSON string-character escaping as performed by `json.dumps` with
`ensure_ascii=False`. -/
def jsonEscapeChar (c : Char) : List Char :=
  if c == '"' then ['\\', '"']
  else if c == '\\' then ['\\', '\\']
  else if c == '\n' then ['\\', 'n']
  else if c == '\t' then ['\\', 't']
  else if c == '\r' then ['\\', 'r']
  else if c.toNat == 8 then ['\\', 'b']
  else if c.toNat == 12 then ['\\', 'f']
  else if c.toNat < 32 then
    ['\\', 'u', '0', '0', hexDigitChar (c.toNat / 16), hexDigitChar (c.toNat % 16)]
  else [c]

def jsonStr (s : String) : String :=
  ⟨'"' :: (s.data.map jsonEscapeChar).flatten ++ ['"']⟩

/-- `json.dumps(payload, ensure_ascii=False, separators=(",", ":"),
sort_keys=True)` (line 206) for the fixed three-key payload; the sorted key
order is `completed_at < job_id < scope`. -/
def canonicalPayloadJson (p : WebhookPayload) : String :=
  "\x7b" ++ jsonStr "completed_at" ++ ":" ++ jsonStr p.completed_at ++ "," ++
    jsonStr "job_id" ++ ":" ++ jsonStr p.job_id ++ "," ++
    jsonStr "scope" ++ ":" ++ jsonStr p.scope ++ "\x7d"

/-- The `signature` attached at lines 207-213: hex HMAC-SHA256 of the
canonical JSON, keyed by the UTF-8 secret. -/
def webhookSignature (secret : String) (p : WebhookPayload) : String :=
  hexOfBytes (hmacSha256 (utf8Bytes secret) (utf8Bytes (canonicalPayloadJson p)))

/-- The signed payload posted by `_dispatch_completion_webhook`
(lines 205-213). -/
def signedWebhookPayload (secret : String) (rs : RunStatsView) (now : String) :
    WebhookPayload × String :=
  let payload := build_completion_webhook_payload rs now
  (payload, webhookSignature secret payload)

/-- The run-stats view of the repository's webhook contract test. -/
def demoRunStats : RunStatsView :=
  { mode := some "daily"
    started_at := some "2026-02-16T00:00:00Z"
    completed_at := some "2026-02-16T00:01:00Z" }

set_option maxRecDepth 16384 in
/-- C4.  Webhook payload determinism and signature: for every `run_stats`
carrying non-empty `mode`, `started_at` and `completed_at`, the payload is
exactly `{job_id = "port-" ++ mode ++ "-" ++ started_at, scope =
"GIT_REPO", completed_at}` (independently of the wall clock `now`), the
attached signature is the hex HMAC-SHA256 of the canonical sorted-key JSON
keyed by the secret, identical inputs give identical signatures, and for
the repository test's payload two different secrets give different
signatures. -/
theorem c4_webhook_payload_signature (mode started completed : String)
    (hm : mode.isEmpty = false) (hs : started.isEmpty = false)
    (hc : completed.isEmpty = false) (now secret : String) :
    build_completion_webhook_payload ⟨some mode, some started, some completed⟩ now =
        { job_id := "port-" ++ mode ++ "-" ++ started
          scope := "GIT_REPO"
          completed_at := completed } ∧
      (signedWebhookPayload secret ⟨some mode, some started, some completed⟩ now).2 =
        hexOfBytes (hmacSha256 (utf8Bytes secret)
          (utf8Bytes (canonicalPayloadJson
            (build_completion_webhook_payload
              ⟨some mode, some started, some completed⟩ now)))) ∧
      (∀ now' : String,
        signedWebhookPayload secret ⟨some mode, some started, some completed⟩ now' =
          signedWebhookPayload secret ⟨some mode, some started, some completed⟩ now) ∧
      webhookSignature "secret-a" (build_completion_webhook_payload demoRunStats "x") ≠
        webhookSignature "secret-b" (build_completion_webhook_payload demoRunStats "x") := by
  have hbuild : ∀ n : String,
      build_completion_webhook_payload ⟨some mode, some started, some completed⟩ n =
        { job_id := "port-" ++ mode ++ "-" ++ started
          scope := "GIT_REPO"
          completed_at := completed } := by
    intro n
    unfold build_completion_webhook_payload pyStrOr WEBHOOK_SCOPE
    simp [hm, hs, hc]
  refine ⟨hbuild now, rfl, ?_, ?_⟩
  · intro now'
    unfold signedWebhookPayload
    rw [hbuild now', hbuild now]
  · decide

set_option maxRecDepth 16384 in
theorem c4_webhook_payload_signature_witness :
    build_completion_webhook_payload
          ⟨some "daily", some "2026-02-16T00:00:00Z", some "2026-02-16T00:01:00Z"⟩
          "x" =
        { job_id := "port-" ++ "daily" ++ "-" ++ "2026-02-16T00:00:00Z"
          scope := "GIT_REPO"
          completed_at := "2026-02-16T00:01:00Z" } ∧
      (signedWebhookPayload "s3cret"
          ⟨some "daily", some "2026-02-16T00:00:00Z", some "2026-02-16T00:01:00Z"⟩
          "x").2 =
        hexOfBytes (hmacSha256 (utf8Bytes "s3cret")
          (utf8Bytes (canonicalPayloadJson
            (build_completion_webhook_payload
              ⟨some "daily", some "2026-02-16T00:00:00Z", some "2026-02-16T00:01:00Z"⟩
              "x")))) ∧
      (∀ now' : String,
        signedWebhookPayload "s3cret"
            ⟨some "daily", some "2026-02-16T00:00:00Z", some "2026-02-16T00:01:00Z"⟩
            now' =
          signedWebhookPayload "s3cret"
            ⟨some "daily", some "2026-02-16T00:00:00Z", some "2026-02-16T00:01:00Z"⟩
            "x") ∧
      webhookSignature "secret-a" (build_completion_webhook_payload demoRunStats "x") ≠
        webhookSignature "secret-b" (build_completion_webhook_payload demoRunStats "x") :=
  c4_webhook_payload_signature "daily" "2026-02-16T00:00:00Z" "2026-02-16T00:01:00Z"
    rfl rfl rfl "x" "s3cret"
/-! ## Star-history rollup

`app/services/port/star_history_rollup.py` is not in the source tree (only
`tests/port/test_star_history_rollup.py` imports it); the rollup is
modelled from spec §4.5. -/

/-- A calendar date (proleptic Gregorian, year ≥ 1). -/
structure CalDate where
  year : Nat
  month : Nat
  day : Nat
deriving Repr, DecidableEq

/-- Absolute day number of a calendar date (standard days-from-civil
formula, shifted so all intermediate values stay in `Nat` for years ≥ 1);
consecutive calendar days map to consecutive numbers. -/
def CalDate.toDays (d : CalDate) : Nat :=
  let y := if d.month ≤ 2 then d.year - 1 else d.year
  let era := y / 400
  let yoe := y % 400
  let mp := if d.month ≤ 2 then d.month + 9 else d.month - 3
  let doy := (153 * mp + 2) / 5 + d.day - 1
  let doe := yoe * 365 + yoe / 4 - yoe / 100 + doy
  era * 146097 + doe

/-- Calendar-month key: strictly increasing month-by-month. -/
def CalDate.monthKey (d : CalDate) : Nat := d.year * 12 + d.month

/-- `StarPoint(date, stars)` as in `test_star_history_rollup.py`. -/
structure StarPoint where
  date : CalDate
  stars : Nat
deriving Repr, DecidableEq

/-- Modelled from the spec: keep the last point of every run of
same-calendar-month points.  For input sorted ascending by date this keeps
"the latest point within that month" (§4.5) for each month. -/
def monthlyLatest : List StarPoint → List StarPoint
  | [] => []
  | [p] => [p]
  | p :: q :: rest =>
    if p.date.monthKey == q.date.monthKey then monthlyLatest (q :: rest)
    else p :: monthlyLatest (q :: rest)

/-- The points strictly before the recent window
`[today - recent_days, today]`. -/
def olderPoints (points : List StarPoint) (today : CalDate) (recent_days : Nat) :
    List StarPoint :=
  points.filter (fun p => decide (p.date.toDays < today.toDays - recent_days))

/-- The points inside the recent window, retained verbatim. -/
def recentPoints (points : List StarPoint) (today : CalDate) (recent_days : Nat) :
    List StarPoint :=
  points.filter (fun p => !decide (p.date.toDays < today.toDays - recent_days))

/-- Modelled from the spec: `rollup_star_points(points, today, recent_days)`
(§4.5) — points within `[today - recentDays, today]` are retained verbatim,
one per day; older points are grouped by calendar month and reduced to the
latest point of each month.  The input is the stored per-day ordered set:
ascending by date, at most one point per calendar day. -/
def rollup_star_points (points : List StarPoint) (today : CalDate)
    (recent_days : Nat) : List StarPoint :=
  monthlyLatest (olderPoints points today recent_days) ++
    recentPoints points today recent_days

/-- Adjacent-pair Boolean chain condition (decidable hypothesis form). -/
def chainB (r : α → α → Bool) : List α → Bool
  | [] => true
  | [_] => true
  | a :: b :: rest => r a b && chainB r (b :: rest)

theorem chainB_iff (r : α → α → Bool) (l : List α) :
    chainB r l = true ↔ List.Chain' (fun a b => r a b = true) l := by
  induction l with
  | nil => simp [chainB]
  | cons a rest ih =>
    cases rest with
    | nil => simp [chainB]
    | cons b tail =>
      rw [List.chain'_cons, ← ih]
      simp [chainB]

theorem chainB_pairwise {α : Type} (r : α → α → Bool)
    (htrans : ∀ a b c, r a b = true → r b c = true → r a c = true)
    (l : List α) (h : chainB r l = true) :
    List.Pairwise (fun a b => r a b = true) l := by
  haveI : IsTrans α (fun a b => r a b = true) := ⟨htrans⟩
  exact List.chain'_iff_pairwise.mp ((chainB_iff r l).mp h)

/-- Dates strictly ascending (at most one point per day). -/
def ltDaysB (p q : StarPoint) : Bool := decide (p.date.toDays < q.date.toDays)

/-- Month keys non-decreasing (calendar consistency of the encoding). -/
def leMonthB (p q : StarPoint) : Bool := decide (p.date.monthKey ≤ q.date.monthKey)

/-- Star counts non-decreasing. -/
def leStarsB (p q : StarPoint) : Bool := decide (p.stars ≤ q.stars)

theorem monthlyLatest_sublist (l : List StarPoint) :
    List.Sublist (monthlyLatest l) l := by
  induction l with
  | nil => simp [monthlyLatest]
  | cons p rest ih =>
    cases rest with
    | nil => simp [monthlyLatest]
    | cons q tail =>
      simp only [monthlyLatest]
      by_cases h : (p.date.monthKey == q.date.monthKey) = true
      · rw [if_pos h]
        exact ih.cons p
      · rw [if_neg h]
        exact ih.cons₂ p

theorem monthlyLatest_length_le (l : List StarPoint)
    (h : List.Pairwise (fun p q => p.date.monthKey ≤ q.date.monthKey) l) :
    (monthlyLatest l).length ≤
      ((l.map fun p => p.date.monthKey).dedup).length := by
  induction l with
  | nil => simp [monthlyLatest]
  | cons p rest ih =>
    cases rest with
    | nil =>
      simp [monthlyLatest, List.dedup_cons_of_not_mem]
    | cons q tail =>
      have hcons := List.pairwise_cons.mp h
      have hpq : p.date.monthKey ≤ q.date.monthKey := hcons.1 q (by simp)
      have hrest := hcons.2
      simp only [monthlyLatest]
      by_cases hk : (p.date.monthKey == q.date.monthKey) = true
      · have hkeq : p.date.monthKey = q.date.monthKey := by simpa using hk
        rw [if_pos hk, List.map_cons, List.dedup_cons_of_mem (by
          rw [List.map_cons, hkeq]
          simp)]
        exact ih hrest
      · have hkne : p.date.monthKey ≠ q.date.monthKey := by simpa using hk
        have hnotmem : p.date.monthKey ∉ (q :: tail).map (fun p => p.date.monthKey) := by
          intro hmem
          rw [List.mem_map] at hmem
          obtain ⟨r, hr, hrk⟩ := hmem
          rcases List.mem_cons.mp hr with rfl | hrtail
          · exact hkne hrk.symm
          · have hqr : q.date.monthKey ≤ r.date.monthKey :=
              (List.pairwise_cons.mp hrest).1 r hrtail
            have hlt : p.date.monthKey < q.date.monthKey :=
              Nat.lt_of_le_of_ne hpq hkne
            omega
        rw [if_neg hk, List.map_cons, List.dedup_cons_of_not_mem hnotmem]
        simpa using ih hrest

/-- A strictly increasing list of naturals confined to `[a, b]` has at most
`b - a + 1` elements. -/
theorem pairwise_lt_length_le (l : List Nat) (a b : Nat)
    (hp : List.Pairwise (· < ·) l) (hmem : ∀ x ∈ l, a ≤ x ∧ x ≤ b) :
    l.length ≤ b - a + 1 := by
  have hnodup : l.Nodup := hp.imp Nat.ne_of_lt
  have hsub : l.toFinset ⊆ Finset.Icc a b := by
    intro x hx
    rw [List.mem_toFinset] at hx
    exact Finset.mem_Icc.mpr (hmem x hx)
  have hcard := Finset.card_le_card hsub
  rw [List.toFinset_card_of_nodup hnodup, Nat.card_Icc] at hcard
  omega
/-- Consecutive days of one month. -/
def monthDays (y m len : Nat) : List CalDate :=
  (List.range len).map (fun i => ⟨y, m, i + 1⟩)

/-- Dense daily dates 2025-06-01 .. 2026-02-14 (259 days, spanning 258
days > 120). -/
def cDates : List CalDate :=
  monthDays 2025 6 30 ++ monthDays 2025 7 31 ++ monthDays 2025 8 31 ++
    monthDays 2025 9 30 ++ monthDays 2025 10 31 ++ monthDays 2025 11 30 ++
    monthDays 2025 12 31 ++ monthDays 2026 1 31 ++ monthDays 2026 2 14

/-- One star point per day, stars strictly increasing with the date. -/
def cPoints : List StarPoint :=
  cDates.enum.map (fun pr => ⟨pr.2, 100 + pr.1⟩)

/-- Dense daily dates 2025-09-28 .. 2026-02-14: the 140-day shape of
`test_rollup_keeps_recent_daily_and_rolls_older_monthly`. -/
def tDates : List CalDate :=
  (List.range 3).map (fun i => ⟨2025, 9, 28 + i⟩) ++ monthDays 2025 10 31 ++
    monthDays 2025 11 30 ++ monthDays 2025 12 31 ++ monthDays 2026 1 31 ++
    monthDays 2026 2 14

def tPoints : List StarPoint :=
  tDates.enum.map (fun pr => ⟨pr.2, 100 + pr.1⟩)

set_option maxRecDepth 100000 in
/-- C9 counterexample.  A dense daily sequence of 259 points
(2025-06-01 .. 2026-02-14) with non-decreasing star counts spans 258 > 120
days, yet `rollup(points, today=2026-02-14, recent_days=90)` keeps 97
points (91 recent days plus one monthly point for each of June..November),
exceeding the claimed bound `recentDays + 4 = 94`: each additional month of
history adds a retained point, so no bound of the form `recentDays + 4`
holds for all inputs spanning more than 120 days. -/
theorem c9_rollup_counterexample :
    chainB (fun p q => decide (p.date.toDays + 1 = q.date.toDays) && leStarsB p q)
        cPoints = true ∧
      (⟨2026, 2, 14⟩ : CalDate).toDays - (⟨2025, 6, 1⟩ : CalDate).toDays = 258 ∧
      120 < 258 ∧
      cPoints.head?.map (fun p => p.date) = some ⟨2025, 6, 1⟩ ∧
      cPoints.getLast?.map (fun p => p.date) = some ⟨2026, 2, 14⟩ ∧
      (rollup_star_points cPoints ⟨2026, 2, 14⟩ 90).length = 97 ∧
      ¬((rollup_star_points cPoints ⟨2026, 2, 14⟩ 90).length ≤ 90 + 4) := by
  decide
set_option maxRecDepth 100000 in
/-- C9 (amended).  For every date-sorted star-point sequence (dates
strictly ascending — one point per day at most — with correspondingly
non-decreasing month keys, all dates at most `today`) whose star counts are
monotonically non-decreasing, the rollup returns at most
`(recentDays + 1) + M` points where `M` is the number of distinct calendar
months among the points older than the recent window, and the returned
sequence is still ordered by date with monotonically non-decreasing star
counts.  For the repository test's 140-day daily shape with
`recent_days = 90` this bound is the claimed `recentDays + 4`. -/
theorem c9_rollup_amended (points : List StarPoint) (today : CalDate)
    (recent_days : Nat)
    (hdays : chainB ltDaysB points = true)
    (hmonth : chainB leMonthB points = true)
    (hstars : chainB leStarsB points = true)
    (hbound : points.all (fun p => decide (p.date.toDays ≤ today.toDays)) = true) :
    (rollup_star_points points today recent_days).length ≤
        (recent_days + 1) +
          ((olderPoints points today recent_days).map
            fun p => p.date.monthKey).dedup.length ∧
      List.Chain' (fun p q => p.date.toDays < q.date.toDays)
        (rollup_star_points points today recent_days) ∧
      List.Chain' (fun p q => p.stars ≤ q.stars)
        (rollup_star_points points today recent_days) ∧
      (rollup_star_points tPoints ⟨2026, 2, 14⟩ 90).length ≤ 90 + 4 := by
  have Pdays : List.Pairwise
      (fun p q : StarPoint => p.date.toDays < q.date.toDays) points := by
    refine (chainB_pairwise ltDaysB (fun a b c hab hbc => ?_) points hdays).imp
      (fun h => by simpa [ltDaysB] using h)
    simp only [ltDaysB, decide_eq_true_eq] at hab hbc ⊢
    omega
  have Pmonth : List.Pairwise
      (fun p q : StarPoint => p.date.monthKey ≤ q.date.monthKey) points := by
    refine (chainB_pairwise leMonthB (fun a b c hab hbc => ?_) points hmonth).imp
      (fun h => by simpa [leMonthB] using h)
    simp only [leMonthB, decide_eq_true_eq] at hab hbc ⊢
    omega
  have Pstars : List.Pairwise
      (fun p q : StarPoint => p.stars ≤ q.stars) points := by
    refine (chainB_pairwise leStarsB (fun a b c hab hbc => ?_) points hstars).imp
      (fun h => by simpa [leStarsB] using h)
    simp only [leStarsB, decide_eq_true_eq] at hab hbc ⊢
    omega
  have hboundP : ∀ p ∈ points, p.date.toDays ≤ today.toDays := by
    intro p hp
    simpa using List.all_eq_true.mp hbound p hp
  have holderSub : List.Sublist (olderPoints points today recent_days) points :=
    List.filter_sublist _
  have hrecentSub : List.Sublist (recentPoints points today recent_days) points :=
    List.filter_sublist _
  have hmonthlySub :
      List.Sublist (monthlyLatest (olderPoints points today recent_days)) points :=
    (monthlyLatest_sublist _).trans holderSub
  have holderMem : ∀ p ∈ olderPoints points today recent_days,
      p ∈ points ∧ p.date.toDays < today.toDays - recent_days := by
    intro p hp
    rw [olderPoints, List.mem_filter] at hp
    exact ⟨hp.1, by simpa using hp.2⟩
  have hrecentMem : ∀ p ∈ recentPoints points today recent_days,
      p ∈ points ∧ today.toDays - recent_days ≤ p.date.toDays := by
    intro p hp
    rw [recentPoints, List.mem_filter] at hp
    refine ⟨hp.1, ?_⟩
    have h2 := hp.2
    simp only [Bool.not_eq_true', decide_eq_false_iff_not, Nat.not_lt] at h2
    exact h2
  have Pcomb : List.Pairwise
      (fun p q : StarPoint =>
        p.date.toDays < q.date.toDays ∧ p.stars ≤ q.stars) points :=
    Pdays.and Pstars
  have hcross : ∀ a ∈ monthlyLatest (olderPoints points today recent_days),
      ∀ b ∈ recentPoints points today recent_days,
      a.date.toDays < b.date.toDays ∧ a.stars ≤ b.stars := by
    intro a ha b hb
    have haOld : a ∈ olderPoints points today recent_days :=
      (monthlyLatest_sublist _).subset ha
    obtain ⟨haP, haLt⟩ := holderMem a haOld
    obtain ⟨hbP, hbGe⟩ := hrecentMem b hb
    rw [List.pairwise_iff_getElem] at Pcomb
    obtain ⟨i, hi, hia⟩ := List.mem_iff_getElem.mp haP
    obtain ⟨j, hj, hjb⟩ := List.mem_iff_getElem.mp hbP
    rcases Nat.lt_trichotomy i j with hij | hij | hij
    · have h := Pcomb i j hi hj hij
      rw [hia, hjb] at h
      exact h
    · subst hij
      have hab : a = b := hia.symm.trans hjb
      rw [hab] at haLt
      omega
    · have h := Pcomb j i hj hi hij
      rw [hia, hjb] at h
      omega
  have Pout : List.Pairwise
      (fun p q : StarPoint =>
        p.date.toDays < q.date.toDays ∧ p.stars ≤ q.stars)
      (rollup_star_points points today recent_days) := by
    have Pcomb' := Pcomb
    rw [rollup_star_points, List.pairwise_append]
    exact ⟨Pcomb'.sublist hmonthlySub, Pcomb'.sublist hrecentSub, hcross⟩
  refine ⟨?_, ?_, ?_, ?_⟩
  · rw [rollup_star_points, List.length_append]
    have h1 : (monthlyLatest (olderPoints points today recent_days)).length ≤
        ((olderPoints points today recent_days).map
          fun p => p.date.monthKey).dedup.length :=
      monthlyLatest_length_le _ (Pmonth.sublist holderSub)
    have h2 : (recentPoints points today recent_days).length ≤ recent_days + 1 := by
      have hmapP : List.Pairwise (· < ·)
          ((recentPoints points today recent_days).map
            fun p => p.date.toDays) := by
        rw [List.pairwise_map]
        exact Pdays.sublist hrecentSub
      have hmemb : ∀ x ∈ (recentPoints points today recent_days).map
          (fun p => p.date.toDays),
          today.toDays - recent_days ≤ x ∧ x ≤ today.toDays := by
        intro x hx
        rw [List.mem_map] at hx
        obtain ⟨p, hp, rfl⟩ := hx
        exact ⟨(hrecentMem p hp).2, hboundP p (hrecentMem p hp).1⟩
      have hlen := pairwise_lt_length_le _ (today.toDays - recent_days)
        today.toDays hmapP hmemb
      rw [List.length_map] at hlen
      omega
    omega
  · exact (Pout.imp (fun h => h.1)).chain'
  · exact (Pout.imp (fun h => h.2)).chain'
  · decide

set_option maxRecDepth 100000 in
/-- Witness for C9 (amended) at the 140-day test shape. -/
theorem c9_rollup_amended_witness :
    (rollup_star_points tPoints ⟨2026, 2, 14⟩ 90).length ≤
        (90 + 1) +
          ((olderPoints tPoints ⟨2026, 2, 14⟩ 90).map
            fun p => p.date.monthKey).dedup.length ∧
      List.Chain' (fun p q => p.date.toDays < q.date.toDays)
        (rollup_star_points tPoints ⟨2026, 2, 14⟩ 90) ∧
      List.Chain' (fun p q => p.stars ≤ q.stars)
        (rollup_star_points tPoints ⟨2026, 2, 14⟩ 90) ∧
      (rollup_star_points tPoints ⟨2026, 2, 14⟩ 90).length ≤ 90 + 4 :=
  c9_rollup_amended tPoints ⟨2026, 2, 14⟩ 90 (by decide) (by decide) (by decide)
    (by decide)
